import Mathlib

/-!
Shallow embedding of the Policy & Coordination Core of the
Broswer-hybrid-llm-All-in-one-platform repository: the permission-scope
model (`crates/security-engine/src/permissions.rs`), the guardrail command
analyzer (`guardrails.rs`), the audit trail (`audit.rs`), the lockdown
state machine (`engine.rs`), the capability router
(`orchestrator/src/router.rs`), the round-robin load balancer
(`crates/llm-pool/src/load_balancer.rs`) and the provider pool
(`crates/llm-pool/src/pool.rs`).

Rust strings are modelled as Lean `String` and operated on through their
`List Char` data; machine integers that never overflow in the modelled
paths (`usize` counters, lengths) are `Nat`; the `f32` resource limits are
`Rat` (every literal appearing in the source is exactly representable).
Stateful components (locks around maps, vectors and the lockdown flag)
are modelled by explicit state records and state-passing functions.
Environment-generated audit fields (`Uuid::new_v4()`, `Utc::now()`) are
omitted from the audit-entry model: no modelled behaviour reads them.
-/

namespace HybridLLM

/-! ## String helpers (models of Rust `str` operations) -/

/-- Model of Rust `str::starts_with` on character lists: `prefOf p s`
is true iff `p` is a (literal) prefix of `s`. -/
def prefOf : List Char → List Char → Bool
  | [], _ => true
  | _ :: _, [] => false
  | a :: as, b :: bs => a = b && prefOf as bs

/-- Model of Rust `str::ends_with` on character lists. -/
def suffOf (p s : List Char) : Bool :=
  prefOf p.reverse s.reverse

/-- Model of Rust `str::contains` (substring containment) on character
lists: `subOf needle hay`. -/
def subOf (needle : List Char) : List Char → Bool
  | [] => prefOf needle []
  | c :: t => prefOf needle (c :: t) || subOf needle t

/-- ASCII whitespace, the fragment of `char::is_whitespace` exercised by
the modelled commands. -/
def isWS (c : Char) : Bool :=
  c = ' ' || c = '\t' || c = '\n' || c = '\r' || c = '\x0b' || c = '\x0c'

/-- Model of `command.split_whitespace().next().unwrap_or("")`: the first
whitespace-separated token of a string (empty when there is none). -/
def firstToken (s : String) : String :=
  ⟨(s.data.dropWhile isWS).takeWhile (fun c => !isWS c)⟩

/-! ## Shared data model (`crates/common/src/types.rs`, `traits.rs`,
`errors.rs`) -/

inductive LockdownState where
  | Normal
  | ReadOnly
  | Locked
deriving DecidableEq, Repr

inductive Capability where
  | Code
  | Security
  | General
  | Analysis
  | Creative
deriving DecidableEq, Repr

structure FileSystemPermissions where
  read_paths : List String
  write_paths : List String
  execute_paths : List String
deriving DecidableEq, Repr

structure NetworkPermissions where
  inbound : Bool
  outbound : Bool
  require_approval : List String
deriving DecidableEq, Repr

structure CommandPermissions where
  whitelist : List String
  blacklist : List String
  require_explanation : Bool
deriving DecidableEq, Repr

structure ResourceLimits where
  max_cpu_percent : Rat
  max_memory_gb : Rat
  max_disk_gb : Rat
deriving DecidableEq, Repr

structure PermissionScope where
  file_system : FileSystemPermissions
  network : NetworkPermissions
  commands : CommandPermissions
  resources : ResourceLimits
deriving DecidableEq, Repr

/-- `impl Default for PermissionScope` in `types.rs`. -/
def PermissionScope.defaultScope : PermissionScope :=
  { file_system :=
      { read_paths := ["/home/*/downloads/*", "/rag/*"]
        write_paths := ["/home/*/downloads/*"]
        execute_paths := [] }
    network :=
      { inbound := true
        outbound := true
        require_approval := ["*"] }
    commands :=
      { whitelist := ["git", "npm", "python", "cargo", "ls", "cat"]
        blacklist := ["rm -rf /", "sudo", "dd", "mkfs"]
        require_explanation := true }
    resources :=
      { max_cpu_percent := 80
        max_memory_gb := 8
        max_disk_gb := 50 } }

/-- `PermissionType` from `crates/common/src/messages.rs`. -/
inductive PermissionType where
  | FileRead (path : String)
  | FileWrite (path : String)
  | FileExecute (path : String)
  | Command (command : String)
  | NetworkAccess (url : String)
  | ResourceIncrease (resource : String) (amount : Rat)
deriving DecidableEq, Repr

inductive LockdownReason where
  | PolicyViolation (details : String)
  | SuspiciousPattern (pattern : String)
  | ResourceExceeded (resource : String) (limit actual : Rat)
  | UserPanicButton
  | MultipleFailedRequests (count : Nat)
deriving DecidableEq, Repr

/-- The error enum `HybridLLMError` (`crates/common/src/errors.rs`).
Only the variants reachable from the modelled operations carry data that
matters here; payload strings are kept. -/
inductive HybridLLMError where
  | LLMError (msg : String)
  | PermissionDenied (msg : String)
  | SecurityViolation (msg : String)
  | LockdownActive (msg : String)
  | LLMNotFound (msg : String)
  | InvalidRequest (msg : String)
  | Timeout (msg : String)
deriving DecidableEq, Repr

/-- `RiskLevel` from `crates/common/src/traits.rs`; `toNat` is the
`as u8` cast used for comparisons (declaration order). -/
inductive RiskLevel where
  | Low
  | Medium
  | High
  | Critical
deriving DecidableEq, Repr

def RiskLevel.toNat : RiskLevel → Nat
  | .Low => 0
  | .Medium => 1
  | .High => 2
  | .Critical => 3

/-- Audit log entry (`types.rs::AuditLogEntry`); the environment-generated
`id : Uuid` and `timestamp : DateTime<Utc>` fields are omitted and the
`details : serde_json::Value` payload is modelled as a string rendering. -/
structure AuditLogEntry where
  llm_id : Option String
  action : String
  details : String
  approved : Bool
  reason : Option String
deriving DecidableEq, Repr

/-! ## Permission manager (`crates/security-engine/src/permissions.rs`) -/

/-- `PermissionManager::path_matches`: a pattern ending in `"/*"` keeps
the text before the `"/*"` and does a literal `starts_with` check; any
other pattern containing `*` matches everything; otherwise exact
equality. -/
def path_matches (pattern path : String) : Bool :=
  if suffOf ['/', '*'] pattern.data then
    prefOf (pattern.data.take (pattern.data.length - 2)) path.data
  else if pattern.data.contains '*' then
    true
  else
    pattern = path

/-- `PermissionManager::check_file_access`: grant iff some allowed
pattern matches the path. -/
def check_file_access (allowed_paths : List String) (path : String) : Bool :=
  allowed_paths.any (fun allowed => path_matches allowed path)

/-- `PermissionManager::check_command`: blacklist substrings veto first,
then the first whitespace token must equal a whitelist entry. -/
def check_command (cmd_perms : CommandPermissions) (command : String) : Bool :=
  let binary := firstToken command
  if cmd_perms.blacklist.any (fun blocked => subOf blocked.data command.data) then
    false
  else
    cmd_perms.whitelist.any (fun allowed => binary = allowed)

/-- `PermissionManager::check_resource_increase`. -/
def check_resource_increase (limits : ResourceLimits) (resource : String)
    (requested : Rat) : Bool :=
  if resource = "cpu" then requested ≤ limits.max_cpu_percent
  else if resource = "memory" then requested ≤ limits.max_memory_gb
  else if resource = "disk" then requested ≤ limits.max_disk_gb
  else false

/-- Association-list finder modelling `HashMap::get` (first, hence only,
binding for a key: inserts overwrite in place). -/
def assocFind {β : Type} : List (String × β) → String → Option β
  | [], _ => none
  | (k, v) :: rest, key => if k = key then some v else assocFind rest key

/-- Mutable state of `PermissionManager`: the global scope, the per-LLM
overrides and the failed-request counters (each behind its own `RwLock`
in the source). -/
structure PermissionManagerState where
  global_scope : PermissionScope
  llm_scopes : List (String × PermissionScope)
  failed_requests : List (String × Nat)
deriving DecidableEq, Repr

/-- `PermissionManager::get_scope`: the per-LLM override when present,
otherwise the global scope. -/
def get_scope (pm : PermissionManagerState) (llm_id : String) : PermissionScope :=
  match assocFind pm.llm_scopes llm_id with
  | some scope => scope
  | none => pm.global_scope

/-- The `match permission` dispatch inside
`PermissionManager::check_permission`. -/
def evalPermission (scope : PermissionScope) : PermissionType → Bool
  | .FileRead path => check_file_access scope.file_system.read_paths path
  | .FileWrite path => check_file_access scope.file_system.write_paths path
  | .FileExecute path => check_file_access scope.file_system.execute_paths path
  | .Command command => check_command scope.commands command
  | .NetworkAccess _ => scope.network.outbound || scope.network.inbound
  | .ResourceIncrease resource amount =>
      check_resource_increase scope.resources resource amount

/-- `HashMap::entry(id).or_insert(0); *count += 1` on the counter map. -/
def bumpCount : List (String × Nat) → String → List (String × Nat)
  | [], id => [(id, 1)]
  | (k, v) :: rest, id =>
      if k = id then (k, v + 1) :: rest else (k, v) :: bumpCount rest id

/-- `PermissionManager::track_failed_request`. -/
def track_failed_request (pm : PermissionManagerState) (llm_id : String) :
    PermissionManagerState :=
  { pm with failed_requests := bumpCount pm.failed_requests llm_id }

/-- `PermissionManager::get_failed_count`. -/
def get_failed_count (pm : PermissionManagerState) (llm_id : String) : Nat :=
  match assocFind pm.failed_requests llm_id with
  | some n => n
  | none => 0

/-- `PermissionManager::reset_failed_count` (removes the entry). -/
def reset_failed_count (pm : PermissionManagerState) (llm_id : String) :
    PermissionManagerState :=
  { pm with failed_requests :=
      pm.failed_requests.filter (fun kv => !(kv.1 = llm_id : Bool)) }

/-- `PermissionManager::check_permission`: evaluate the applicable scope;
on denial bump the actor's failure counter. (The Rust function always
returns `Ok`, so the boolean is returned directly.) -/
def pm_check_permission (pm : PermissionManagerState) (llm_id : String)
    (permission : PermissionType) : Bool × PermissionManagerState :=
  let scope := get_scope pm llm_id
  let granted := evalPermission scope permission
  if granted then (true, pm) else (false, track_failed_request pm llm_id)

/-! ## Audit logger (`crates/security-engine/src/audit.rs`)

The logger's state is the `Vec<AuditLogEntry>` behind its `RwLock`. -/

/-- `AuditLogger::log`: push the entry at the end of the log. -/
def audit_log (logs : List AuditLogEntry) (e : AuditLogEntry) : List AuditLogEntry :=
  logs ++ [e]

/-- `AuditLogger::get_all`: a clone of the whole log. -/
def get_all (logs : List AuditLogEntry) : List AuditLogEntry :=
  logs

/-- `AuditLogger::get_denied`: the entries with `approved == false`, in
log order. -/
def get_denied (logs : List AuditLogEntry) : List AuditLogEntry :=
  logs.filter (fun e => !e.approved)

/-- `AuditLogger::count`. -/
def audit_count (logs : List AuditLogEntry) : Nat :=
  logs.length

/-! ## Security engine (`crates/security-engine/src/engine.rs`) -/

/-- Rendering of a `LockdownReason` standing in for the `format!("{:?}")`
strings put into audit entries. -/
def describeReason : LockdownReason → String
  | .PolicyViolation d => "PolicyViolation " ++ d
  | .SuspiciousPattern p => "SuspiciousPattern " ++ p
  | .ResourceExceeded r _ _ => "ResourceExceeded " ++ r
  | .UserPanicButton => "UserPanicButton"
  | .MultipleFailedRequests n => "MultipleFailedRequests " ++ toString n

/-- Rendering of a `PermissionType` standing in for the
`format!("Permission request: {:?}", permission)` action string. -/
def describePermission : PermissionType → String
  | .FileRead p => "FileRead " ++ p
  | .FileWrite p => "FileWrite " ++ p
  | .FileExecute p => "FileExecute " ++ p
  | .Command c => "Command " ++ c
  | .NetworkAccess u => "NetworkAccess " ++ u
  | .ResourceIncrease r _ => "ResourceIncrease " ++ r

/-- The state owned by `SecurityEngineImpl`: lockdown flag, permission
manager and audit log (each behind `Arc`/locks in the source). -/
structure EngineState where
  lockdown : LockdownState
  perms : PermissionManagerState
  audit : List AuditLogEntry
deriving DecidableEq, Repr

/-- `SecurityEngineImpl::trigger_lockdown`: unconditionally set the state
to `Locked` and append an unapproved audit entry describing the reason.
(The Rust function always returns `Ok(())`.) -/
def trigger_lockdown (st : EngineState) (reason : LockdownReason) : EngineState :=
  { st with
    lockdown := LockdownState.Locked
    audit := audit_log st.audit
      { llm_id := none
        action := "Lockdown triggered"
        details := describeReason reason
        approved := false
        reason := some ("Lockdown: " ++ describeReason reason) } }

/-- `SecurityEngineImpl::check_permission`: short-circuit deny when
`Locked` (before any logging); otherwise consult the permission manager,
append the decision to the audit log, and on denial trigger lockdown once
the actor's failure count has reached 5. -/
def engine_check_permission (st : EngineState) (llm_id : String)
    (permission : PermissionType) (explanation : String) :
    Except HybridLLMError Bool × EngineState :=
  if st.lockdown = LockdownState.Locked then
    (Except.ok false, st)
  else
    let res := pm_check_permission st.perms llm_id permission
    let granted := res.1
    let st1 : EngineState :=
      { st with
        perms := res.2
        audit := audit_log st.audit
          { llm_id := some llm_id
            action := "Permission request: " ++ describePermission permission
            details := describePermission permission ++ " " ++ explanation
            approved := granted
            reason := if !granted then some "Permission denied by policy" else none } }
    if !granted then
      let failed_count := get_failed_count st1.perms llm_id
      if failed_count ≥ 5 then
        (Except.ok granted,
          trigger_lockdown st1 (LockdownReason.MultipleFailedRequests failed_count))
      else
        (Except.ok granted, st1)
    else
      (Except.ok granted, st1)

/-- `SecurityEngineImpl::release_lockdown`: an empty token fails with the
`PermissionDenied` error (the spec taxonomy's AuthenticationFailure) and
changes nothing; otherwise the state becomes `Normal` and one approved
audit entry is appended. -/
def release_lockdown (st : EngineState) (auth_token : String) :
    Except HybridLLMError Unit × EngineState :=
  if auth_token = "" then
    (Except.error (HybridLLMError.PermissionDenied "Invalid authentication token"), st)
  else
    (Except.ok (),
      { st with
        lockdown := LockdownState.Normal
        audit := audit_log st.audit
          { llm_id := none
            action := "Lockdown released"
            details := "authenticated"
            approved := true
            reason := some "User authenticated" } })

/-- `SecurityEngineImpl::lockdown_state`: read-only snapshot. -/
def lockdown_state (st : EngineState) : LockdownState :=
  st.lockdown

/-- `SecurityEngineImpl::new`: fresh engine with the default global
scope, no overrides, no counters, empty log, `Normal` state. -/
def EngineState.fresh : EngineState :=
  { lockdown := LockdownState.Normal
    perms :=
      { global_scope := PermissionScope.defaultScope
        llm_scopes := []
        failed_requests := [] }
    audit := [] }

/-! ## Guardrails (`crates/security-engine/src/guardrails.rs`)

The rule patterns are `regex::Regex` values; they are embedded as a small
regex AST with the constructs the eight default rules use (literals,
classes, `.`, `\s`, `\w`, alternation, repetition and the `\b` word
boundary), with the Unicode classes restricted to their ASCII fragment —
the fragment the analyzed commands exercise. -/

/-- ASCII fragment of the regex `\w` class. -/
def isWordChar (c : Char) : Bool :=
  c.isAlphanum || c = '_'

/-- Regex AST. `cls` is a positive character class; `anyc` is `.` (any
character except a newline); `space` is `\s`; `wordc` is `\w`; `wb` is
the `\b` word boundary. -/
inductive Re where
  | eps
  | lit (c : Char)
  | cls (cs : List Char)
  | anyc
  | space
  | wordc
  | wb
  | seq (a b : Re)
  | alt (a b : Re)
  | star (a : Re)
  | opt (a : Re)
deriving Repr

/-- Concatenation of literal characters. -/
def strRe (s : String) : Re :=
  s.data.foldr (fun c r => Re.seq (Re.lit c) r) Re.eps

/-- `r+` as `r · r*`. -/
def rePlus (r : Re) : Re :=
  Re.seq r (Re.star r)

/-- A position is a word boundary iff exactly one of the neighbouring
characters is a word character; `left` is the reversed left context. -/
def atBoundary (left rest : List Char) : Bool :=
  let p := match left with | [] => false | c :: _ => isWordChar c
  let n := match rest with | [] => false | c :: _ => isWordChar c
  p != n

/-- Fuel-indexed backtracking matcher in continuation style: `reRun fuel
r left rest k` succeeds iff some prefix of `rest` matches `r` (with
reversed left context `left` for `\b`) and the continuation `k` accepts
the remainder.  Fuel strictly decreases at every node visit, so any run
with enough fuel is exhaustive. -/
def reRun : Nat → Re → List Char → List Char →
    (List Char → List Char → Bool) → Bool
  | 0, _, _, _, _ => false
  | fuel + 1, r, left, rest, k =>
    match r with
    | .eps => k left rest
    | .lit c =>
        match rest with
        | [] => false
        | a :: t => a = c && k (a :: left) t
    | .cls cs =>
        match rest with
        | [] => false
        | a :: t => cs.contains a && k (a :: left) t
    | .anyc =>
        match rest with
        | [] => false
        | a :: t => !(a = '\n' : Bool) && k (a :: left) t
    | .space =>
        match rest with
        | [] => false
        | a :: t => isWS a && k (a :: left) t
    | .wordc =>
        match rest with
        | [] => false
        | a :: t => isWordChar a && k (a :: left) t
    | .wb => atBoundary left rest && k left rest
    | .seq a b => reRun fuel a left rest (fun l2 r2 => reRun fuel b l2 r2 k)
    | .alt a b => reRun fuel a left rest k || reRun fuel b left rest k
    | .star a =>
        k left rest ||
          reRun fuel a left rest (fun l2 r2 =>
            if r2.length < rest.length then reRun fuel (Re.star a) l2 r2 k
            else false)
    | .opt a => k left rest || reRun fuel a left rest k

/-- Unanchored search (`Regex::is_match`): try every start position. -/
def reSearch (fuel : Nat) (r : Re) : List Char → List Char → Bool
  | left, rest =>
    reRun fuel r left rest (fun _ _ => true) ||
      match rest with
      | [] => false
      | c :: t => reSearch fuel r (c :: left) t

/-- Fuel bound amply covering the default rules on the commands the
claims evaluate (fuel is consumed once per AST-node visit). -/
def matchFuel (s : List Char) : Nat :=
  1000 + 100 * s.length

/-- `Regex::is_match` over a whole string. -/
def reMat (r : Re) (s : String) : Bool :=
  reSearch (matchFuel s.data) r [] s.data

structure GuardrailRule where
  name : String
  pattern : Re
  risk_level : RiskLevel
  description : String

/-- The suggestions pushed per matched rule name inside
`Guardrails::analyze_command`. -/
def suggestionsFor (name : String) : List String :=
  if name = "dangerous_rm" then
    ["Use specific paths instead of wildcards",
     "Consider using \x27trash\x27 or \x27safe-rm\x27 instead"]
  else if name = "sudo_usage" then
    ["Explain why elevated privileges are needed"]
  else if name = "disk_operations" then
    ["Use file-level operations instead"]
  else []

structure SecurityAnalysis where
  safe : Bool
  risk_level : RiskLevel
  issues : List String
  suggestions : List String
deriving DecidableEq, Repr

/-- The `for rule in &self.rules` loop of `Guardrails::analyze_command`,
threading the `issues`, `suggestions` and `max_risk` accumulators. -/
def analyzeLoop (command : String) :
    List GuardrailRule → List String → List String → RiskLevel →
    List String × List String × RiskLevel
  | [], issues, suggestions, max_risk => (issues, suggestions, max_risk)
  | rule :: rest, issues, suggestions, max_risk =>
    if reMat rule.pattern command then
      analyzeLoop command rest
        (issues ++ [rule.name ++ ": " ++ rule.description])
        (suggestions ++ suggestionsFor rule.name)
        (if rule.risk_level.toNat > max_risk.toNat then rule.risk_level
         else max_risk)
    else
      analyzeLoop command rest issues suggestions max_risk

/-- `Guardrails::analyze_command` (the Rust function always returns
`Ok`, so the analysis is returned directly; it is total on command
strings). -/
def analyze_command (rules : List GuardrailRule) (command : String) :
    SecurityAnalysis :=
  let acc := analyzeLoop command rules [] [] RiskLevel.Low
  { safe := acc.2.2.toNat ≤ RiskLevel.Medium.toNat
    risk_level := acc.2.2
    issues := acc.1
    suggestions := acc.2.1 }

/-- `Guardrails::default_rules`, with each `Regex::new` literal
transcribed into the AST. -/
def default_rules : List GuardrailRule :=
  [ { name := "dangerous_rm"
      -- rm\s+(-rf?|--recursive|--force).*(/|\*|\$HOME)
      pattern := Re.seq (strRe "rm") (Re.seq (rePlus Re.space)
        (Re.seq
          (Re.alt (Re.seq (Re.lit '-') (Re.seq (Re.lit 'r') (Re.opt (Re.lit 'f'))))
            (Re.alt (strRe "--recursive") (strRe "--force")))
          (Re.seq (Re.star Re.anyc)
            (Re.alt (Re.lit '/') (Re.alt (Re.lit '*') (strRe "$HOME"))))))
      risk_level := RiskLevel.Critical
      description := "Dangerous recursive file deletion detected" }
  , { name := "sudo_usage"
      -- \bsudo\b
      pattern := Re.seq Re.wb (Re.seq (strRe "sudo") Re.wb)
      risk_level := RiskLevel.High
      description := "Elevated privileges requested" }
  , { name := "disk_operations"
      -- \b(dd|mkfs|fdisk)\b
      pattern := Re.seq Re.wb (Re.seq
        (Re.alt (strRe "dd") (Re.alt (strRe "mkfs") (strRe "fdisk"))) Re.wb)
      risk_level := RiskLevel.Critical
      description := "Low-level disk operations detected" }
  , { name := "network_exposure"
      -- \b(nc|netcat|ncat)\b.*-l
      pattern := Re.seq Re.wb (Re.seq
        (Re.alt (strRe "nc") (Re.alt (strRe "netcat") (strRe "ncat")))
        (Re.seq Re.wb (Re.seq (Re.star Re.anyc) (strRe "-l"))))
      risk_level := RiskLevel.Medium
      description := "Network port listening detected" }
  , { name := "system_modification"
      -- \b(chmod\s+777|chown\s+root)
      pattern := Re.seq Re.wb
        (Re.alt (Re.seq (strRe "chmod") (Re.seq (rePlus Re.space) (strRe "777")))
          (Re.seq (strRe "chown") (Re.seq (rePlus Re.space) (strRe "root"))))
      risk_level := RiskLevel.High
      description := "Dangerous permission changes detected" }
  , { name := "data_exfiltration"
      -- \b(curl|wget|scp|rsync)\b.*\|.*\b(nc|netcat|bash)\b
      pattern := Re.seq Re.wb (Re.seq
        (Re.alt (strRe "curl")
          (Re.alt (strRe "wget") (Re.alt (strRe "scp") (strRe "rsync"))))
        (Re.seq Re.wb (Re.seq (Re.star Re.anyc) (Re.seq (Re.lit '|')
          (Re.seq (Re.star Re.anyc) (Re.seq Re.wb (Re.seq
            (Re.alt (strRe "nc") (Re.alt (strRe "netcat") (strRe "bash")))
            Re.wb)))))))
      risk_level := RiskLevel.Critical
      description := "Potential data exfiltration pattern detected" }
  , { name := "shell_injection"
      -- [;&|`$]\s*\(
      pattern := Re.seq (Re.cls [';', '&', '|', Char.ofNat 96, '$'])
        (Re.seq (Re.star Re.space) (Re.lit '('))
      risk_level := RiskLevel.High
      description := "Potential shell injection detected" }
  , { name := "password_exposure"
      -- (password|passwd|secret|api[_-]?key)\s*=\s*['"]?\w+
      pattern := Re.seq
        (Re.alt (strRe "password")
          (Re.alt (strRe "passwd")
            (Re.alt (strRe "secret")
              (Re.seq (strRe "api") (Re.seq (Re.opt (Re.cls ['_', '-']))
                (strRe "key"))))))
        (Re.seq (Re.star Re.space) (Re.seq (Re.lit '=')
          (Re.seq (Re.star Re.space) (Re.seq (Re.opt (Re.cls ['\x27', '"']))
            (rePlus Re.wordc)))))
      risk_level := RiskLevel.High
      description := "Hardcoded credentials detected" }
  ]

/-! ## Router (`orchestrator/src/router.rs`)

The registry is a `HashMap<String, LLMInstance>`; its value iteration
order is unspecified, so the registry is modelled as the list of stored
instances in an arbitrary order and every routing theorem is stated for
all orders. -/

structure LLMInstance where
  id : String
  capabilities : List Capability
  model_name : String
  max_context : Nat
  is_loaded : Bool
deriving DecidableEq, Repr

structure TaskDescription where
  description : String
  required_capabilities : List Capability
deriving DecidableEq, Repr

/-- The `sort_by` comparator inside `Router::route_task`: loaded
instances first, then more capabilities first. -/
def routeCmp (a b : LLMInstance) : Ordering :=
  match a.is_loaded, b.is_loaded with
  | true, false => Ordering.lt
  | false, true => Ordering.gt
  | _, _ => compare b.capabilities.length a.capabilities.length

/-- `sort_by` keeps `a` before `b` when the comparator does not say
`Greater`. -/
def routeLe (a b : LLMInstance) : Bool :=
  !(routeCmp a b = Ordering.gt : Bool)

/-- `routeLe` as a decidable relation.  Rust's `sort_by` is a stable
sort, and for a total-preorder comparator (which `routeCmp` is) every
stable sort computes the same list, so the sort is modelled by stable
insertion sort over this relation. -/
def RouteLeP (a b : LLMInstance) : Prop :=
  routeLe a b = true

instance : DecidableRel RouteLeP := fun a b => instDecidableEqBool (routeLe a b) true

/-- The candidate filter of `Router::route_task`: loaded and holding
every required capability. -/
def routeCandidates (registry : List LLMInstance) (task : TaskDescription) :
    List LLMInstance :=
  registry.filter (fun inst =>
    inst.is_loaded &&
      task.required_capabilities.all (fun cap => inst.capabilities.contains cap))

/-- `Router::route_task`: filter, fail with `LLMNotFound` when no
candidate remains, otherwise stable-sort by the comparator and return the
first candidate's id. -/
def route_task (registry : List LLMInstance) (task : TaskDescription) :
    Except HybridLLMError String :=
  let candidates := routeCandidates registry task
  if candidates.isEmpty then
    Except.error (HybridLLMError.LLMNotFound "No LLM available for capabilities")
  else
    match candidates.insertionSort RouteLeP with
    | [] => Except.error (HybridLLMError.LLMNotFound "No LLM available for capabilities")
    | c :: _ => Except.ok c.id

/-! ## Load balancer (`crates/llm-pool/src/load_balancer.rs`)

The `AtomicUsize` round-robin counter is modelled as an explicit `Nat`
threaded through the calls (`fetch_add` returns the pre-increment
value). -/

/-- `LoadBalancer::select_round_robin`: `None` on an empty list (before
touching the counter), otherwise `ids[counter % len]` with the counter
advanced by one. -/
def select_round_robin (llm_ids : List String) (counter : Nat) :
    Option String × Nat :=
  if h : llm_ids = [] then
    (none, counter)
  else
    (some (llm_ids.get ⟨counter % llm_ids.length,
        Nat.mod_lt _ (List.length_pos.mpr h)⟩),
      counter + 1)

/-- Iterated round-robin selection, collecting the picks in call order. -/
def roundRobinRuns (llm_ids : List String) :
    Nat → Nat → List (Option String)
  | _, 0 => []
  | counter, n + 1 =>
      let r := select_round_robin llm_ids counter
      r.1 :: roundRobinRuns llm_ids r.2 n

/-! ## Provider pool (`crates/llm-pool/src/pool.rs`)

A `dyn LLMProvider` trait object is modelled by the `LLMInstance`
metadata its `instance()` accessor exposes — the only part `register`,
`unregister` and `find_by_capability` consult. -/

/-- `DashMap::insert`: overwrite the binding in place if the key exists,
otherwise append a new binding. -/
def mapInsert {β : Type} : List (String × β) → String → β → List (String × β)
  | [], key, v => [(key, v)]
  | (k, w) :: rest, key, v =>
      if k = key then (k, v) :: rest else (k, w) :: mapInsert rest key v

/-- Capability-index finder (`DashMap::get` over `Capability` keys). -/
def capFind : List (Capability × List String) → Capability → Option (List String)
  | [], _ => none
  | (k, v) :: rest, key => if k = key then some v else capFind rest key

/-- `capability_index.entry(cap).or_insert_with(Vec::new).push(id)`. -/
def capPush : List (Capability × List String) → Capability → String →
    List (Capability × List String)
  | [], cap, id => [(cap, [id])]
  | (k, ids) :: rest, cap, id =>
      if k = cap then (k, ids ++ [id]) :: rest
      else (k, ids) :: capPush rest cap id

structure PoolState where
  providers : List (String × LLMInstance)
  capability_index : List (Capability × List String)
deriving DecidableEq, Repr

def PoolState.empty : PoolState :=
  { providers := [], capability_index := [] }

/-- `LLMPool::register`: insert (overwriting any same-id binding) into
the provider map, then push the id onto the index list of each of the
provider's capabilities — with no deduplication. -/
def pool_register (st : PoolState) (provider : LLMInstance) : PoolState :=
  { providers := mapInsert st.providers provider.id provider
    capability_index :=
      provider.capabilities.foldl
        (fun idx cap => capPush idx cap provider.id) st.capability_index }

/-- `LLMPool::get`. -/
def pool_get (st : PoolState) (llm_id : String) : Option LLMInstance :=
  assocFind st.providers llm_id

/-- `LLMPool::find_by_capability`: resolve every id recorded under the
capability, dropping ids whose provider is gone. -/
def find_by_capability (st : PoolState) (capability : Capability) :
    List LLMInstance :=
  match capFind st.capability_index capability with
  | some ids => ids.filterMap (pool_get st)
  | none => []

/-! ## Helper lemmas -/

theorem foldl_audit_log (entries acc : List AuditLogEntry) :
    entries.foldl audit_log acc = acc ++ entries := by
  induction entries generalizing acc with
  | nil => simp
  | cons e rest ih => simp [audit_log, ih]

/-! ## Claims -/

/-- C9. The audit log is append-only and order-preserving: after `N`
sequential `log` calls on a fresh logger, `get_all` returns exactly those
`N` entries in call order, and `get_denied` returns exactly the entries
with `approved = false`, in the same relative order (a sublist of
`get_all`). -/
theorem audit_append_only_order_preserving (entries : List AuditLogEntry) :
    get_all (entries.foldl audit_log []) = entries ∧
    (get_all (entries.foldl audit_log [])).length = entries.length ∧
    get_denied (entries.foldl audit_log []) =
      (get_all (entries.foldl audit_log [])).filter (fun e => !e.approved) ∧
    (get_denied (entries.foldl audit_log [])).Sublist
      (get_all (entries.foldl audit_log [])) := by
  refine ⟨by simp [get_all, foldl_audit_log], by simp [get_all, foldl_audit_log],
    rfl, ?_⟩
  exact List.filter_sublist _

/-- C8. Round-robin selection returns `ids[counter % len]` and advances
the counter by one on a non-empty list, returns `none` leaving the
counter alone on the empty list, and six consecutive calls over
`["a", "b", "c"]` starting from a fresh counter yield a, b, c, a, b, c. -/
theorem select_round_robin_spec (ids : List String) (counter : Nat) :
    (select_round_robin ids counter).1 = ids[counter % ids.length]? ∧
    (select_round_robin ids counter).2 =
      (if ids = [] then counter else counter + 1) ∧
    roundRobinRuns ["a", "b", "c"] 0 6 =
      [some "a", some "b", some "c", some "a", some "b", some "c"] := by
  refine ⟨?_, ?_, by decide⟩
  · by_cases h : ids = []
    · subst h; simp [select_round_robin]
    · simp [select_round_robin, h,
        List.getElem?_eq_getElem (Nat.mod_lt _ (List.length_pos.mpr h))]
  · by_cases h : ids = [] <;> simp [select_round_robin, h]

/-- C3 (code divergence). Under the source's `path_matches`, the pattern
`"/home/*/downloads/*"` ends in `"/*"`, so it becomes a literal prefix
check against `"/home/*/downloads"` (the `*` is literal) and the claimed
grant of `"/home/alice/downloads/report.pdf"` is in fact a denial; the
repository's own `test_file_permission` input is likewise denied, while
`"/etc/passwd"` is denied as claimed. -/
theorem path_pattern_denies_claimed_grant :
    check_file_access ["/home/*/downloads/*"] "/home/alice/downloads/report.pdf"
      = false ∧
    check_file_access ["/home/*/downloads/*"] "/etc/passwd" = false ∧
    check_file_access ["/home/*/downloads/*", "/rag/*"]
      "/home/user/downloads/file.txt" = false ∧
    path_matches "/home/*/downloads/*" "/home/alice/downloads/report.pdf"
      = false := by
  refine ⟨by decide, by decide, by decide, by decide⟩

/-- C4. A command is granted iff no blacklist entry is a substring of the
full command and the first whitespace-separated token equals some
whitelist entry; with whitelist `["git"]` and blacklist `["rm -rf /"]`,
`"git status"` is granted and `"rm -rf /"` is denied. -/
theorem check_command_spec (perms : CommandPermissions) (command : String) :
    (check_command perms command = true ↔
      ((∀ b ∈ perms.blacklist, subOf b.data command.data = false) ∧
        ∃ w ∈ perms.whitelist, firstToken command = w)) ∧
    check_command ⟨["git"], ["rm -rf /"], true⟩ "git status" = true ∧
    check_command ⟨["git"], ["rm -rf /"], true⟩ "rm -rf /" = false := by
  refine ⟨?_, by decide, by decide⟩
  by_cases hb : perms.blacklist.any (fun blocked => subOf blocked.data command.data)
  · simp only [check_command, hb, if_true]
    constructor
    · intro h; exact absurd h (by simp)
    · rintro ⟨hall, -⟩
      rcases List.any_eq_true.mp hb with ⟨b, hbmem, hsub⟩
      have := hall b hbmem
      simp [this] at hsub
  · simp only [check_command, hb, if_false]
    have hb' : perms.blacklist.any (fun blocked => subOf blocked.data command.data)
        = false := by
      exact Bool.not_eq_true _ ▸ hb
    have hforall : ∀ b ∈ perms.blacklist, subOf b.data command.data = false := by
      intro b hbmem
      have := List.any_eq_false.mp hb' b hbmem
      simpa using this
    constructor
    · intro h
      rcases List.any_eq_true.mp h with ⟨w, hwmem, hw⟩
      exact ⟨hforall, ⟨w, hwmem, by simpa using hw⟩⟩
    · rintro ⟨-, w, hwmem, hw⟩
      exact List.any_eq_true.mpr ⟨w, hwmem, by simpa using hw⟩

theorem capFind_capPush (idx : List (Capability × List String))
    (k cap : Capability) (id : String) :
    (capFind (capPush idx k id) cap).getD [] =
      (capFind idx cap).getD [] ++ (if k = cap then [id] else []) := by
  induction idx with
  | nil => by_cases h : k = cap <;> simp [capPush, capFind, h]
  | cons kv rest ih =>
    obtain ⟨k', ids⟩ := kv
    by_cases h1 : k' = k
    · subst h1
      by_cases h2 : k' = cap <;> simp [capPush, capFind, h2]
    · by_cases h2 : k' = cap
      · subst h2
        simp [capPush, capFind, h1, Ne.symm h1]
      · simp [capPush, capFind, h1, h2, ih]

theorem capFind_foldPush (caps : List Capability)
    (idx : List (Capability × List String)) (cap : Capability) (id : String) :
    (capFind (caps.foldl (fun i k => capPush i k id) idx) cap).getD [] =
      (capFind idx cap).getD [] ++ List.replicate (caps.count cap) id := by
  induction caps generalizing idx with
  | nil => simp
  | cons k rest ih =>
    by_cases h : k = cap
    · subst h
      simp [List.count_cons, ih, capFind_capPush, List.replicate_succ,
        List.append_assoc, List.replicate_add]
    · simp [List.count_cons, h, ih, capFind_capPush]

theorem find_by_capability_entry (st : PoolState) (cap : Capability) :
    find_by_capability st cap =
      ((capFind st.capability_index cap).getD []).filterMap (pool_get st) := by
  unfold find_by_capability
  cases capFind st.capability_index cap <;> simp

/-- C10. Registering a provider whose id is already registered overwrites
the entry in the provider map but appends the id again, without
deduplication, to the index list of each of its capabilities: after
registering two providers with the same id into a fresh pool, each with
a common capability `c` (listed once), `find_by_capability c` returns
two handles, both resolving to the latest registration of that one id. -/
theorem register_duplicate_id_duplicates_index (p q : LLMInstance)
    (c : Capability) (hid : p.id = q.id)
    (hp : p.capabilities.count c = 1) (hq : q.capabilities.count c = 1) :
    find_by_capability (pool_register (pool_register PoolState.empty p) q) c
      = [q, q] := by
  have hidx :
      (capFind (pool_register (pool_register PoolState.empty p) q).capability_index
        c).getD [] = [p.id, q.id] := by
    simp [pool_register, PoolState.empty, capFind_foldPush, hp, hq, capFind]
  have hprov :
      (pool_register (pool_register PoolState.empty p) q).providers
        = [(p.id, q)] := by
    simp [pool_register, PoolState.empty, mapInsert, hid]
  rw [find_by_capability_entry, hidx]
  simp [pool_get, hprov, assocFind, hid]

def dupProvA : LLMInstance :=
  ⟨"x", [Capability.Code], "m1", 4096, true⟩

def dupProvB : LLMInstance :=
  ⟨"x", [Capability.Code, Capability.Creative], "m2", 4096, false⟩

theorem register_duplicate_id_duplicates_index_witness :
    dupProvA.id = dupProvB.id ∧
    dupProvA.capabilities.count Capability.Code = 1 ∧
    dupProvB.capabilities.count Capability.Code = 1 ∧
    find_by_capability (pool_register (pool_register PoolState.empty dupProvA)
        dupProvB) Capability.Code = [dupProvB, dupProvB] :=
  ⟨by decide, by decide, by decide,
    register_duplicate_id_duplicates_index dupProvA dupProvB Capability.Code
      (by decide) (by decide) (by decide)⟩

/-- The audit entry appended by a successful `release_lockdown`. -/
def releaseEntry : AuditLogEntry :=
  { llm_id := none
    action := "Lockdown released"
    details := "authenticated"
    approved := true
    reason := some "User authenticated" }

/-- C6. `release_lockdown` with the empty token fails with the
authentication error (`HybridLLMError::PermissionDenied("Invalid
authentication token")`, the code's realization of the spec taxonomy's
AuthenticationFailure), leaving the whole engine state — lockdown flag
and audit log included — untouched; with any non-empty token it
succeeds, sets the state to `Normal`, and appends exactly one approved
audit entry. -/
theorem release_lockdown_spec :
    (∀ st : EngineState,
      release_lockdown st "" =
        (Except.error (HybridLLMError.PermissionDenied
          "Invalid authentication token"), st)) ∧
    (∀ (st : EngineState) (token : String), token ≠ "" →
      (release_lockdown st token).1 = Except.ok () ∧
      (release_lockdown st token).2.lockdown = LockdownState.Normal ∧
      ∃ e : AuditLogEntry,
        (release_lockdown st token).2.audit = st.audit ++ [e] ∧
          e.approved = true) := by
  constructor
  · intro st; simp [release_lockdown]
  · intro st token htok
    refine ⟨by simp [release_lockdown, htok], by simp [release_lockdown, htok], ?_⟩
    refine ⟨releaseEntry, ?_, rfl⟩
    simp [release_lockdown, htok, audit_log, releaseEntry]

def lockedFresh : EngineState :=
  { EngineState.fresh with lockdown := LockdownState.Locked }

theorem release_lockdown_spec_witness :
    release_lockdown lockedFresh "" =
      (Except.error (HybridLLMError.PermissionDenied
        "Invalid authentication token"), lockedFresh) ∧
    (release_lockdown lockedFresh "token").1 = Except.ok () ∧
    (release_lockdown lockedFresh "token").2.lockdown = LockdownState.Normal :=
  ⟨release_lockdown_spec.1 lockedFresh,
    (release_lockdown_spec.2 lockedFresh "token" (by decide)).1,
    (release_lockdown_spec.2 lockedFresh "token" (by decide)).2.1⟩

theorem assocFind_bumpCount (l : List (String × Nat)) (a : String) :
    assocFind (bumpCount l a) a = some ((assocFind l a).getD 0 + 1) := by
  induction l with
  | nil => simp [bumpCount, assocFind]
  | cons kv rest ih =>
    obtain ⟨k, v⟩ := kv
    by_cases h : k = a <;> simp [bumpCount, assocFind, h, ih]

theorem failed_count_bump (pm : PermissionManagerState) (a : String) :
    get_failed_count (track_failed_request pm a) a =
      get_failed_count pm a + 1 := by
  unfold get_failed_count track_failed_request
  simp only [assocFind_bumpCount]
  cases assocFind pm.failed_requests a <;> simp

/-- In the `Locked` state, `check_permission` denies immediately: no
audit entry, no counter change, no consultation of any scope — the
engine state is returned untouched whatever the actor, the request and
the stored scopes. -/
theorem engine_locked_denies (st : EngineState)
    (h : st.lockdown = LockdownState.Locked) (llm_id : String)
    (p : PermissionType) (e : String) :
    engine_check_permission st llm_id p e = (Except.ok false, st) := by
  simp [engine_check_permission, h]

/-- One denied `check_permission` call from a `Normal` state bumps the
actor's failure counter by one and locks the system exactly when the new
count reaches 5. -/
theorem denial_step (st : EngineState) (a : String) (p : PermissionType)
    (e : String) (st' : EngineState)
    (hN : st.lockdown = LockdownState.Normal)
    (hrun : engine_check_permission st a p e = (Except.ok false, st')) :
    get_failed_count st'.perms a = get_failed_count st.perms a + 1 ∧
    st'.lockdown =
      (if get_failed_count st.perms a + 1 ≥ 5 then LockdownState.Locked
       else LockdownState.Normal) := by
  have hnl : ¬(st.lockdown = LockdownState.Locked) := by rw [hN]; simp
  cases hg : evalPermission (get_scope st.perms a) p with
  | true =>
    exfalso
    simp [engine_check_permission, hnl, pm_check_permission, hg] at hrun
  | false =>
    simp only [engine_check_permission, hnl, ite_false, if_neg,
      pm_check_permission, hg] at hrun
    simp at hrun
    split at hrun
    next h5 =>
      simp only [Prod.mk.injEq] at hrun
      obtain ⟨-, hst⟩ := hrun
      subst hst
      rw [failed_count_bump] at h5
      refine ⟨by simp [trigger_lockdown, failed_count_bump], ?_⟩
      have h5' : get_failed_count st.perms a + 1 ≥ 5 := h5
      simp [trigger_lockdown, h5']
    next h5 =>
      simp only [Prod.mk.injEq] at hrun
      obtain ⟨-, hst⟩ := hrun
      subst hst
      rw [failed_count_bump] at h5
      refine ⟨by simp [failed_count_bump], ?_⟩
      have h5' : ¬(get_failed_count st.perms a + 1 ≥ 5) := h5
      simp [hN, h5']

/-- C1. Five consecutive denied `check_permission` calls by one actor,
starting from a `Normal` engine whose failure counter for that actor is
fresh and with no reset in between, drive `lockdown_state` to `Locked`;
any sixth request — for any actor, any request kind and any stored
permission scopes — then returns `false` with the state untouched, so
the Permission Manager's scope rules are never consulted. -/
theorem five_denials_lock (st0 : EngineState) (a : String)
    (p1 p2 p3 p4 p5 : PermissionType) (e1 e2 e3 e4 e5 : String)
    (st1 st2 st3 st4 st5 : EngineState)
    (hN : st0.lockdown = LockdownState.Normal)
    (hc : get_failed_count st0.perms a = 0)
    (h1 : engine_check_permission st0 a p1 e1 = (Except.ok false, st1))
    (h2 : engine_check_permission st1 a p2 e2 = (Except.ok false, st2))
    (h3 : engine_check_permission st2 a p3 e3 = (Except.ok false, st3))
    (h4 : engine_check_permission st3 a p4 e4 = (Except.ok false, st4))
    (h5 : engine_check_permission st4 a p5 e5 = (Except.ok false, st5)) :
    lockdown_state st5 = LockdownState.Locked ∧
    ∀ (id : String) (p : PermissionType) (e : String)
      (pm' : PermissionManagerState),
      engine_check_permission { st5 with perms := pm' } id p e =
        (Except.ok false, { st5 with perms := pm' }) := by
  obtain ⟨hc1, hl1⟩ := denial_step st0 a p1 e1 st1 hN h1
  rw [hc] at hc1 hl1
  norm_num at hl1
  obtain ⟨hc2, hl2⟩ := denial_step st1 a p2 e2 st2 hl1 h2
  rw [hc1] at hc2 hl2
  norm_num at hl2
  obtain ⟨hc3, hl3⟩ := denial_step st2 a p3 e3 st3 hl2 h3
  rw [hc2] at hc3 hl3
  norm_num at hl3
  obtain ⟨hc4, hl4⟩ := denial_step st3 a p4 e4 st4 hl3 h4
  rw [hc3] at hc4 hl4
  norm_num at hl4
  obtain ⟨hc5, hl5⟩ := denial_step st4 a p5 e5 st5 hl4 h5
  rw [hc4] at hc5 hl5
  norm_num at hl5
  refine ⟨hl5, ?_⟩
  intro id p e pm'
  exact engine_locked_denies _ (by simpa using hl5) id p e

/-- The denied request and actor used to exercise `five_denials_lock` on
the fresh engine: the default scope rejects reading `/etc/passwd`. -/
def deniedReq : PermissionType := PermissionType.FileRead "/etc/passwd"

/-- One denied-check step of the concrete lockdown run. -/
def lockRun (st : EngineState) : EngineState :=
  (engine_check_permission st "llm" deniedReq "x").2

theorem five_denials_lock_witness :
    lockdown_state
        (lockRun (lockRun (lockRun (lockRun (lockRun EngineState.fresh)))))
      = LockdownState.Locked ∧
    engine_check_permission
        (lockRun (lockRun (lockRun (lockRun (lockRun EngineState.fresh)))))
        "other" (PermissionType.Command "ls") "y" =
      (Except.ok false,
        lockRun (lockRun (lockRun (lockRun (lockRun EngineState.fresh))))) := by
  have h := five_denials_lock EngineState.fresh "llm"
    deniedReq deniedReq deniedReq deniedReq deniedReq "x" "x" "x" "x" "x"
    (lockRun EngineState.fresh)
    (lockRun (lockRun EngineState.fresh))
    (lockRun (lockRun (lockRun EngineState.fresh)))
    (lockRun (lockRun (lockRun (lockRun EngineState.fresh))))
    (lockRun (lockRun (lockRun (lockRun (lockRun EngineState.fresh)))))
    rfl (by decide) rfl rfl rfl rfl rfl
  refine ⟨h.1, ?_⟩
  have h2 := h.2 "other" (PermissionType.Command "ls") "y"
    (lockRun (lockRun (lockRun (lockRun (lockRun EngineState.fresh))))).perms
  exact h2

/-- C2 counterexample: from a `Locked` engine with an empty audit log, a
`check_permission` call returns a denial yet appends no audit entry —
the locked-state short-circuit denial is unrecorded. -/
theorem locked_denial_not_audited :
    (engine_check_permission lockedFresh "llm" (PermissionType.Command "ls")
        "x").1 = Except.ok false ∧
    (engine_check_permission lockedFresh "llm" (PermissionType.Command "ls")
        "x").2.audit = [] := by
  refine ⟨rfl, rfl⟩

/-- C2 (amended). Every `check_permission` call issued while the
lockdown state is not `Locked` that returns a denial appends at least
one audit entry recording that denial (approved = false) before
returning; locked-state short-circuit denials append none. -/
theorem denial_audited_unless_locked (st : EngineState) (id : String)
    (p : PermissionType) (e : String)
    (hL : st.lockdown ≠ LockdownState.Locked)
    (hden : (engine_check_permission st id p e).1 = Except.ok false) :
    ∃ rest, (engine_check_permission st id p e).2.audit = st.audit ++ rest ∧
      ∃ en ∈ rest, en.approved = false := by
  cases hg : evalPermission (get_scope st.perms id) p with
  | true =>
    exfalso
    simp [engine_check_permission, hL, pm_check_permission, hg] at hden
  | false =>
    simp only [engine_check_permission, hL, ite_false, if_neg,
      pm_check_permission, hg]
    simp [trigger_lockdown, audit_log]
    split
    next h5 =>
      refine ⟨_, rfl, ?_⟩
      exact ⟨_, List.mem_cons_self _ _, rfl⟩
    next h5 =>
      refine ⟨_, rfl, ?_⟩
      exact ⟨_, List.mem_cons_self _ _, rfl⟩

theorem denial_audited_unless_locked_witness :
    ∃ rest,
      (engine_check_permission EngineState.fresh "llm" deniedReq "x").2.audit
        = EngineState.fresh.audit ++ rest ∧
      ∃ en ∈ rest, en.approved = false :=
  denial_audited_unless_locked EngineState.fresh "llm" deniedReq "x"
    (by decide) rfl

/-- The rules of `rules` whose pattern matches the command. -/
def matchedRules (rules : List GuardrailRule) (command : String) :
    List GuardrailRule :=
  rules.filter (fun r => reMat r.pattern command)

/-- The `max_risk` update of the analyzer loop. -/
def riskStep (m : RiskLevel) (r : GuardrailRule) : RiskLevel :=
  if r.risk_level.toNat > m.toNat then r.risk_level else m

/-- The maximum risk level over the matched rules (`Low` when none). -/
def maxRiskOf (rules : List GuardrailRule) (command : String) : RiskLevel :=
  (matchedRules rules command).foldl riskStep RiskLevel.Low

theorem analyzeLoop_spec (command : String) (rules : List GuardrailRule)
    (issues suggestions : List String) (maxr : RiskLevel) :
    analyzeLoop command rules issues suggestions maxr =
      (issues ++ (matchedRules rules command).map
          (fun r => r.name ++ ": " ++ r.description),
        suggestions ++
          ((matchedRules rules command).map
            (fun r => suggestionsFor r.name)).flatten,
        (matchedRules rules command).foldl riskStep maxr) := by
  induction rules generalizing issues suggestions maxr with
  | nil => simp [analyzeLoop, matchedRules]
  | cons r rest ih =>
    cases hm : reMat r.pattern command with
    | true =>
      simp [analyzeLoop, matchedRules, hm, ih, riskStep, List.append_assoc]
    | false =>
      simp [analyzeLoop, matchedRules, hm, ih]

theorem riskFold_le (l : List GuardrailRule) (m : RiskLevel) :
    m.toNat ≤ (l.foldl riskStep m).toNat ∧
      ∀ r ∈ l, r.risk_level.toNat ≤ (l.foldl riskStep m).toNat := by
  induction l generalizing m with
  | nil => simp
  | cons r rest ih =>
    have hstep : m.toNat ≤ (riskStep m r).toNat ∧
        r.risk_level.toNat ≤ (riskStep m r).toNat := by
      unfold riskStep
      split <;> omega
    obtain ⟨ih1, ih2⟩ := ih (riskStep m r)
    refine ⟨le_trans hstep.1 ih1, ?_⟩
    intro x hx
    rcases List.mem_cons.mp hx with hx | hx
    · subst hx
      exact le_trans hstep.2 ih1
    · exact ih2 x hx

/-- C5. The guardrail analyzer is total on command strings; its
`risk_level` is the maximum risk level over all rules whose pattern
matches the command (`Low` when none matches), it emits one issue line
per matched rule, and `safe` holds iff that maximum is at most `Medium`
(in the `as u8` order); `"rm -rf /"` analyzes to unsafe/Critical with a
non-empty issue list and `"ls -la"` to safe/Low with no issues. -/
theorem analyze_command_spec (command : String) :
    (analyze_command default_rules command).risk_level =
      maxRiskOf default_rules command ∧
    (∀ r ∈ matchedRules default_rules command,
      r.risk_level.toNat ≤ (maxRiskOf default_rules command).toNat) ∧
    (analyze_command default_rules command).issues =
      (matchedRules default_rules command).map
        (fun r => r.name ++ ": " ++ r.description) ∧
    ((analyze_command default_rules command).safe = true ↔
      (maxRiskOf default_rules command).toNat ≤ RiskLevel.Medium.toNat) ∧
    (analyze_command default_rules "rm -rf /").safe = false ∧
    (analyze_command default_rules "rm -rf /").risk_level =
      RiskLevel.Critical ∧
    (analyze_command default_rules "rm -rf /").issues ≠ [] ∧
    (analyze_command default_rules "ls -la").safe = true ∧
    (analyze_command default_rules "ls -la").risk_level = RiskLevel.Low ∧
    (analyze_command default_rules "ls -la").issues = [] := by
  refine ⟨?_, ?_, ?_, ?_, by decide, by decide, by decide, by decide,
    by decide, by decide⟩
  · simp [analyze_command, analyzeLoop_spec, maxRiskOf]
  · exact (riskFold_le (matchedRules default_rules command) RiskLevel.Low).2
  · simp [analyze_command, analyzeLoop_spec]
  · simp [analyze_command, analyzeLoop_spec, maxRiskOf]

theorem RouteLeP_iff (a b : LLMInstance) :
    RouteLeP a b ↔ routeCmp a b ≠ Ordering.gt := by
  simp [RouteLeP, routeLe]

theorem routeCmp_not_gt (a b : LLMInstance) :
    (routeCmp a b ≠ Ordering.gt) ↔
      (a.is_loaded = true ∧ b.is_loaded = false) ∨
      (a.is_loaded = b.is_loaded ∧
        b.capabilities.length ≤ a.capabilities.length) := by
  unfold routeCmp
  cases ha : a.is_loaded <;> cases hb : b.is_loaded <;>
    simp [Nat.compare_eq_gt]

instance : IsTotal LLMInstance RouteLeP := by
  constructor
  intro a b
  rw [RouteLeP_iff, RouteLeP_iff, routeCmp_not_gt, routeCmp_not_gt]
  cases ha : a.is_loaded <;> cases hb : b.is_loaded <;> simp <;>
    exact Nat.le_total _ _

instance : IsTrans LLMInstance RouteLeP := by
  constructor
  intro a b c hab hbc
  rw [RouteLeP_iff, routeCmp_not_gt] at hab hbc ⊢
  cases ha : a.is_loaded <;> cases hb : b.is_loaded <;>
    cases hc : c.is_loaded <;>
      simp [ha, hb, hc] at hab hbc ⊢
  all_goals omega

theorem routeCandidates_loaded (registry : List LLMInstance)
    (task : TaskDescription) :
    ∀ y ∈ routeCandidates registry task, y.is_loaded = true := by
  intro y hy
  have hmem := List.mem_filter.mp hy
  have := hmem.2
  simp only [Bool.and_eq_true] at this
  exact this.1

/-- C7. `route_task` considers exactly the registered instances that are
loaded and hold every required capability: it fails with `LLMNotFound`
when that candidate set is empty, and otherwise returns the id of a
candidate with the maximum total number of capabilities (for any
registry iteration order); with two loaded candidates holding `{Code}`
and `{Code, Analysis}` and a task requiring `{Code}`, it picks the
`{Code, Analysis}` instance. -/
theorem route_task_spec (registry : List LLMInstance)
    (task : TaskDescription) :
    (routeCandidates registry task = [] →
      route_task registry task =
        Except.error (HybridLLMError.LLMNotFound
          "No LLM available for capabilities")) ∧
    (routeCandidates registry task ≠ [] →
      ∃ c ∈ routeCandidates registry task,
        route_task registry task = Except.ok c.id ∧
        ∀ x ∈ routeCandidates registry task,
          x.capabilities.length ≤ c.capabilities.length) ∧
    route_task
      [⟨"a", [Capability.Code], "m", 4096, true⟩,
        ⟨"b", [Capability.Code, Capability.Analysis], "m", 4096, true⟩]
      ⟨"t", [Capability.Code]⟩ = Except.ok "b" := by
  refine ⟨?_, ?_, rfl⟩
  · intro h
    simp [route_task, h]
  · intro h
    have hperm := List.perm_insertionSort RouteLeP (routeCandidates registry task)
    have hsorted := List.sorted_insertionSort RouteLeP (routeCandidates registry task)
    have hie : (routeCandidates registry task).isEmpty = false := by
      cases hc2 : routeCandidates registry task with
      | nil => exact absurd hc2 h
      | cons y ys => rfl
    rcases hs : (routeCandidates registry task).insertionSort RouteLeP with
      _ | ⟨c, rest⟩
    · rw [hs] at hperm
      exact absurd hperm.nil_eq.symm h
    · rw [hs] at hperm hsorted
      have hcmem : c ∈ routeCandidates registry task :=
        hperm.mem_iff.mp (List.mem_cons_self c rest)
      have hpair := List.pairwise_cons.mp hsorted
      refine ⟨c, hcmem, ?_, ?_⟩
      · simp [route_task, hie, hs]
      · intro x hx
        rcases List.mem_cons.mp (hperm.mem_iff.mpr hx) with hx' | hx'
        · subst hx'; exact le_refl _
        · have hle := hpair.1 x hx'
          have hne := (RouteLeP_iff c x).mp hle
          rcases (routeCmp_not_gt c x).mp hne with ⟨-, hxl⟩ | ⟨-, hlen⟩
          · rw [routeCandidates_loaded registry task x hx] at hxl
            exact absurd hxl (by simp)
          · exact hlen

def c7Registry : List LLMInstance :=
  [⟨"a", [Capability.Code], "m", 4096, true⟩,
    ⟨"b", [Capability.Code, Capability.Analysis], "m", 4096, true⟩]

def c7Task : TaskDescription := ⟨"t", [Capability.Code]⟩

theorem route_task_spec_witness :
    routeCandidates c7Registry c7Task ≠ [] ∧
    ∃ c ∈ routeCandidates c7Registry c7Task,
      route_task c7Registry c7Task = Except.ok c.id ∧
      ∀ x ∈ routeCandidates c7Registry c7Task,
        x.capabilities.length ≤ c.capabilities.length :=
  ⟨by decide, (route_task_spec c7Registry c7Task).2.1 (by decide)⟩

end HybridLLM
